/-
Verification of the `streams` package (singly and doubly linked lazy
streams) against its specification.

The development shallowly embeds the Python sources:
  * `src/streams/__init__.py` — `SinglyLinkedStream`, `DoublyLinkedStream`,
    `thunk_init`, `reversed_node`
  * `src/streams/abc.py` — `LinearStream.__getitem__`, `LinearStream.__iter__`

Conventions used throughout the embedding:
  * Python `None` (the absent sentinel) in stream position is `PartialList.nil`.
  * A link whose resolution raises is `PartialList.raise e`; iteration
    surfaces such an error after the values produced so far, exactly as an
    exception escaping the `__iter__` generator would.
  * Python exceptions are the inductive `PyErr`.
  * Laziness over the finite streams the claims quantify over is modelled by
    full unfolding: a thunk that would eventually produce a chain of nodes is
    denoted by the chain itself, with `raise` marking the point at which
    demanding a further node raises.
-/
import Mathlib

namespace Streams

/-- The Python exception kinds observable from the `streams` package. -/
inductive PyErr : Type where
  | valueError : PyErr
  | indexError : PyErr
  | typeError : PyErr
  | attributeError : PyErr
deriving DecidableEq, Repr

deriving instance DecidableEq for Except

/-- Denotation of a singly linked stream position (the result of a resolved
`next` chain): `nil` is Python `None` (the absent sentinel); `cons v rest` is
a node with value `v` whose `next` resolves to `rest`; `raise e` marks a link
whose resolution raises the exception `e`. -/
inductive PartialList (V : Type) : Type where
  | nil : PartialList V
  | raise : PyErr → PartialList V
  | cons : V → PartialList V → PartialList V
deriving DecidableEq, Repr

namespace PartialList

/-- `SinglyLinkedStream._from_iterator` (src/streams/__init__.py lines
244-266): pull `next(iterator)`, wrap it in a node whose `next` thunk
recurses on the rest; on `StopIteration` return `None`.  A Lean list stands
for the finite iterator. -/
def fromIterator {V : Type} : List V → PartialList V
  | [] => nil
  | x :: xs => cons x (fromIterator xs)

/-- `LinearStream.__iter__` (src/streams/abc.py lines 109-117): repeatedly
yield `node.value` and move to `node.next` until the node is `None`.  Returns
the yielded values together with the exception, if any, that escapes the
generator while resolving a link. -/
def iterate {V : Type} : PartialList V → List V × Option PyErr
  | nil => ([], none)
  | raise e => ([], some e)
  | cons v rest =>
    let r := iterate rest
    (v :: r.1, r.2)

/-- `list(iterate(build_from(S)))` for the singly linked stream: `build_from`
is `from_iterable`, which delegates to `_from_iterator`.  When the built
stream is the absent sentinel `None` (empty source), Python cannot iterate it
(`iter(None)` raises `TypeError`); otherwise the iteration of the node runs. -/
def buildIterate {V : Type} (S : List V) : Except PyErr (List V × Option PyErr) :=
  match fromIterator S with
  | nil => .error .typeError
  | raise e => .error e
  | cons v rest => .ok (iterate (cons v rest))

/-- `SinglyLinkedStream.map` over two streams (src/streams/__init__.py lines
165-189).  Each argument is the denotation of the expression that produced
it (`attrgetter('next')` applied to the previous nodes, evaluated left to
right): if producing an argument raised, the call raises that error; if an
argument is `None`, `attrgetter('value')` raises `AttributeError`; otherwise
the node value is `fn` of the heads and the next thunk recurses over the
tails. -/
def sMap2 {A B C : Type} (fn : A → B → C) : PartialList A → PartialList B → PartialList C
  | raise e, _ => raise e
  | _, raise e => raise e
  | nil, _ => raise .attributeError
  | _, nil => raise .attributeError
  | cons x xs, cons y ys => cons (fn x y) (sMap2 fn xs ys)

/-- Tail walk of `SinglyLinkedStream._starter` (src/streams/__init__.py lines
191-202): the loop body `node = node.next` has just produced `s`, and `k`
more iterations remain.  Landing on `None` raises `IndexError`; a link whose
resolution raises propagates that error. -/
def starterWalk {V : Type} : PartialList V → Nat → Except PyErr (PartialList V)
  | nil, _ => .error .indexError
  | raise e, _ => .error e
  | cons v rest, 0 => .ok (cons v rest)
  | cons _ rest, k + 1 => starterWalk rest k

/-- `SinglyLinkedStream._starter(n)` for a non-negative step count `n`:
zero iterations return the node itself; otherwise walk the `next` chain.
(`range(n)` for negative `n` is empty, so the `Int`-typed callers clamp with
`Int.toNat`.) -/
def starterNat {V : Type} (s : PartialList V) : Nat → Except PyErr (PartialList V)
  | 0 => .ok s
  | n + 1 =>
    match s with
    | nil => .error .attributeError
    | raise e => .error e
    | cons _ rest => starterWalk rest n

/-- Integer indexing branch of `LinearStream.__getitem__` (src/streams/abc.py
lines 67-68): `self._starter(key).value`.  For the singly linked `_starter`,
`for _ in range(n)` performs `max n 0` iterations, hence `Int.toNat`. -/
def getitemInt {V : Type} (s : PartialList V) (i : Int) : Except PyErr V :=
  match starterNat s i.toNat with
  | .error e => .error e
  | .ok (cons v _) => .ok v
  | .ok nil => .error .attributeError
  | .ok (raise e) => .error e

/-- `SinglyLinkedStream._stopper(n)` (src/streams/__init__.py lines 221-242)
with the inner `stop(node, i)` inlined at the thunk position: `n = 0` yields
`None`; otherwise the node keeps its value and the deferred computation
inspects `node.next`: if it is `None` then `IndexError` is raised when
`i > 1` and `None` is produced when `i == 1`; otherwise recurse with
`i - 1`. -/
def sStopper {V : Type} : PartialList V → Nat → PartialList V
  | _, 0 => nil
  | nil, _ + 1 => raise .attributeError
  | raise e, _ + 1 => raise e
  | cons v rest, n + 1 =>
    cons v
      (match rest with
       | nil => if 0 < n then raise .indexError else nil
       | raise e => raise e
       | cons w r => sStopper (cons w r) n)

/-- Walking state of `SinglyLinkedStream._stepper` (src/streams/__init__.py
lines 204-219): the inner `step(node, i)` advances `i = m + 1` links via
`_starter` — running out of nodes substitutes `None` (the `IndexError` is
caught), any other error propagates — and then re-enters `_stepper` at the
landing node.  `sStepperGo m s k` is that advance with `k` links still to
cross and `s` the link just crossed into. -/
def sStepperGo {V : Type} (m : Nat) : PartialList V → Nat → PartialList V
  | nil, _ => nil
  | raise e, _ => raise e
  | cons v rest, 0 => cons v (sStepperGo m rest m)
  | cons _ rest, k + 1 => sStepperGo m rest k

/-- `SinglyLinkedStream._stepper(m + 1)`: keep the current value and defer
the `m + 1`-link advance.  (`_stepper` is only reached from `__getitem__`
after `step > 0` is validated, so the argument is written `m + 1`.) -/
def sStepper {V : Type} (m : Nat) : PartialList V → PartialList V
  | cons v rest => cons v (sStepperGo m rest m)
  | nil => raise .attributeError
  | raise e => raise e

/-- First block of the slice branch of `LinearStream.__getitem__`
(src/streams/abc.py lines 74-81): if `start` is provided, a negative value
raises `ValueError`, otherwise the node advances by `start` via `_starter`
(which may itself raise `IndexError`). -/
def slicePhase1 {V : Type} (s : PartialList V) : Option Int → Except PyErr (PartialList V)
  | none => .ok s
  | some st => if st < 0 then .error .valueError else starterNat s st.toNat

/-- Second block of the slice branch (src/streams/abc.py lines 83-97): if
`stop` is provided, a negative value raises `ValueError`; when `start` was
also provided, the code first executes `stop -= start` and then raises
`ValueError` when `start > stop` (i.e. when `start > stop - start` in the
original values); otherwise the node is truncated by `_stopper`. -/
def slicePhase2 {V : Type} (node : PartialList V) (start : Option Int) :
    Option Int → Except PyErr (PartialList V)
  | none => .ok node
  | some sp =>
    if sp < 0 then .error .valueError
    else
      match start with
      | none => .ok (sStopper node sp.toNat)
      | some st =>
        if st > sp - st then .error .valueError
        else .ok (sStopper node (sp - st).toNat)

/-- Third block of the slice branch (src/streams/abc.py lines 99-105): if
`step` is provided, a non-positive value raises `ValueError`; otherwise
`node._stepper(step)` runs — and when the preceding `_stopper` produced the
absent sentinel, attribute lookup on `None` raises `AttributeError`. -/
def slicePhase3 {V : Type} (node : PartialList V) : Option Int → Except PyErr (PartialList V)
  | none => .ok node
  | some k =>
    if k ≤ 0 then .error .valueError
    else
      match node with
      | nil => .error .attributeError
      | raise e => .error e
      | cons v rest => .ok (sStepper (k.toNat - 1) (cons v rest))

/-- The slice branch of `LinearStream.__getitem__` (src/streams/abc.py lines
70-107), composed from its three blocks in program order; an exception in an
earlier block aborts the whole operation. -/
def getitemSlice {V : Type} (s : PartialList V) (start stop step : Option Int) :
    Except PyErr (PartialList V) :=
  Except.bind (slicePhase1 s start) fun node =>
    Except.bind (slicePhase2 node start stop) fun node2 =>
      slicePhase3 node2 step

/-- The `start` phase of `__getitem__` completes without raising: `start` is
absent, or it is non-negative and the advance stays within the stream built
from `S`. -/
def startPhaseOk {V : Type} (S : List V) : Option Int → Prop
  | none => True
  | some st => 0 ≤ st ∧ st.toNat < S.length

/-- The `stop` phase of `__getitem__` completes without raising: `stop` is
absent, or it is non-negative and, when `start` is also provided, `start`
does not exceed the decremented `stop` (`stop - start`). -/
def stopPhaseOk (start : Option Int) : Option Int → Prop
  | none => True
  | some sp => 0 ≤ sp ∧ (match start with
    | none => True
    | some st => st ≤ sp - st)

end PartialList

/-- Denotation of a position in a doubly linked chain of nodes: `before` are
the values of the predecessors (nearest first), `value` the value here, and
`after` the values of the successors (nearest first).  This is the fully
unfolded view of a finite doubly linked stream; what `next` does past the
last element and what `previous` does before the first element is fixed by
the functions below, matching the construction that produced the chain. -/
structure DZip (V : Type) : Type where
  before : List V
  value : V
  after : List V
deriving DecidableEq, Repr

namespace DZip

/-- `DoublyLinkedStream._from_iterator` (src/streams/__init__.py lines
552-586): on an already exhausted iterator the code executes `return cls()`,
which raises `TypeError` because `DoublyLinkedStream.__init__` requires the
`value` and `next_thunk` arguments; otherwise one value is pulled and the
node's `next` thunk recurses with `previous_thunk = lambda: node`, so the
chain built from `x :: xs` stands at `x` with no predecessor and `xs`
ahead. -/
def dFromIterator {V : Type} : List V → Except PyErr (DZip V)
  | [] => .error .typeError
  | x :: xs => .ok ⟨[], x, xs⟩

/-- Resolving `next` on a node produced by `DoublyLinkedStream
._from_iterator`: the thunk calls `_from_iterator` on the remaining
iterator, which yields the following node — or, once the iterator is
exhausted, executes `return cls()` and raises `TypeError`. -/
def builtNext {V : Type} (z : DZip V) : Except PyErr (DZip V) :=
  match z.after with
  | [] => .error .typeError
  | a :: rest => .ok ⟨z.value :: z.before, a, rest⟩

/-- Resolving `previous` on a doubly linked chain node: the node one step
back, or `None` (here `Option.none`) at the front — `_from_iterator` gives
the first node the default `previous_thunk` returning `None`, and a chain
built by hand terminates its `previous` side the same way. -/
def zipPrev {V : Type} (z : DZip V) : Option (DZip V) :=
  match z.before with
  | [] => none
  | b :: bs => some ⟨bs, b, z.value :: z.after⟩

/-- Moving forward on a cleanly terminated doubly linked chain (one whose
last node's `next` thunk returns `None`): the node one step ahead, or `None`
at the end. -/
def zipNext {V : Type} (z : DZip V) : Option (DZip V) :=
  match z.after with
  | [] => none
  | a :: rest => some ⟨z.value :: z.before, a, rest⟩

/-- `LinearStream.__iter__` over a cleanly terminated doubly linked chain:
yield the value, move to `next`, stop at `None`. -/
def dIterate {V : Type} : DZip V → List V × Option PyErr
  | ⟨_, v, []⟩ => ([v], none)
  | ⟨before, v, a :: rest⟩ =>
    let r := dIterate ⟨v :: before, a, rest⟩
    (v :: r.1, r.2)
termination_by z => z.after.length

/-- Iterating `reversed(node)` (src/streams/__init__.py lines 335-371
together with `reversed_node`, lines 50-54): the reversed node keeps the
value and its `next` thunk resolves to `reversed_node(node.previous)` — the
reversal of the predecessor when there is one, and `None` when
`node.previous` is `None` (`reversed(None)` raises `TypeError`, which
`reversed_node` catches, and the `thunk_init` initializer swallows the
`AttributeError` from initializing `None`).  Iteration therefore yields the
value here followed by the predecessor values, terminating cleanly at the
front of the chain. -/
def revIterate {V : Type} : DZip V → List V × Option PyErr
  | ⟨[], v, _⟩ => ([v], none)
  | ⟨b :: bs, v, after⟩ =>
    let r := revIterate ⟨bs, b, v :: after⟩
    (v :: r.1, r.2)
termination_by z => z.before.length

/-- `DoublyLinkedStream.__contains__` (src/streams/__init__.py lines
309-322): first scan forward with `for candidate in self`, returning `True`
on a match; then scan `for candidate in reversed(self).next` — when
`self.previous` is `None` that expression is `None` and the `for` statement
raises `TypeError` (`NoneType` is not iterable), otherwise it is the
reversal of the predecessor, whose iteration yields the predecessor values;
`False` is returned only after both loops finish. -/
def dContains {V : Type} [DecidableEq V] (x : V) (z : DZip V) : Except PyErr Bool :=
  if x ∈ (dIterate z).1 then .ok true
  else
    match zipPrev z with
    | none => .error .typeError
    | some p => if x ∈ (revIterate p).1 then .ok true else .ok false

/-- Forward walk of `DoublyLinkedStream._starter` (src/streams/__init__.py
lines 588-604) on a cleanly terminated chain: `n` iterations of
`node = node.next`, raising `IndexError` when `None` is reached. -/
def dWalkNext {V : Type} : DZip V → Nat → Except PyErr (DZip V)
  | z, 0 => .ok z
  | z, k + 1 =>
    match zipNext z with
    | none => .error .indexError
    | some t => dWalkNext t k

/-- Backward walk of `DoublyLinkedStream._starter`: `n` iterations of
`node = node.previous`, raising `IndexError` when `None` is reached. -/
def dWalkPrev {V : Type} : DZip V → Nat → Except PyErr (DZip V)
  | z, 0 => .ok z
  | z, k + 1 =>
    match zipPrev z with
    | none => .error .indexError
    | some t => dWalkPrev t k

/-- `DoublyLinkedStream._starter(n)` (src/streams/__init__.py lines
588-604): negative `n` selects the `previous` attribute and walks `abs(n)`
steps backward; otherwise `n` steps forward. -/
def dStarter {V : Type} (z : DZip V) (i : Int) : Except PyErr (DZip V) :=
  if i < 0 then dWalkPrev z i.natAbs else dWalkNext z i.toNat

end DZip

/-- References to the two nodes of the back-fill scenario in claim C3: `A`
is the node whose forward deferred computation yields `B`. -/
inductive NodeRef : Type where
  | refA : NodeRef
  | refB : NodeRef
deriving DecidableEq, Repr

/-- Mutable state of the two-node back-fill scenario.  A slot of type
`Option (Option NodeRef)` models a Python instance attribute: `none` means
the attribute is absent (the link is unresolved and reading it raises
`AttributeError`, taking the getter to its thunk branch); `some r` means the
attribute holds `r`, where `r` is a node reference or Python `None`.
`bPrevCalls` counts invocations of `B`'s own `_previous_thunk`. -/
structure ABState : Type where
  aNext : Option (Option NodeRef)
  bPrev : Option (Option NodeRef)
  bPrevCalls : Nat
deriving DecidableEq, Repr

namespace ABState

/-- The fresh state: both links unresolved, no thunk invocations. -/
def abInit : ABState := ⟨none, none, 0⟩

/-- Reading `A.next` (the `DoublyLinkedStream.next` getter,
src/streams/__init__.py lines 373-385) when `A` memoizes and
`A._next_thunk` is a plain thunk returning `B` (as for a directly
constructed node): return the cached node if the `_next` attribute exists,
otherwise invoke the thunk — which touches nothing of `B` — and cache the
result.  `B`'s state is not modified. -/
def readNextPlain (s : ABState) : Option NodeRef × ABState :=
  match s.aNext with
  | some r => (r, s)
  | none => (some .refB, { s with aNext := some (some .refB) })

/-- Reading `A.next` when `A._next_thunk` is
`thunk_init(lambda: B, next_init)` (src/streams/__init__.py lines 702-723,
with `next_init` as built by the memoizing doubly linked combinators, e.g.
lines 443-444): the wrapper first runs the original thunk obtaining `B`,
then runs `next_init`, which assigns `B._previous = A` directly, and returns
`B`, which the getter caches. -/
def readNextWrapped (s : ABState) : Option NodeRef × ABState :=
  match s.aNext with
  | some r => (r, s)
  | none =>
    (some .refB, { s with aNext := some (some .refB), bPrev := some (some .refA) })

/-- Reading `B.previous` (the `DoublyLinkedStream.previous` getter,
src/streams/__init__.py lines 387-399) when `B` memoizes: return the cached
value if the `_previous` attribute exists; otherwise invoke
`B._previous_thunk` — whose result on this invocation is `thunkResult` —
cache it, and count the invocation. -/
def readPrevB (thunkResult : Option NodeRef) (s : ABState) : Option NodeRef × ABState :=
  match s.bPrev with
  | some r => (r, s)
  | none =>
    (thunkResult,
      { s with bPrev := some thunkResult, bPrevCalls := s.bPrevCalls + 1 })

end ABState

/-- State of one lazily resolved link slot of a stream node (either `_next`
of `SinglyLinkedStream`/`DoublyLinkedStream` or `_previous` of
`DoublyLinkedStream`): the memoization flag, the slot (`none` = attribute
absent, i.e. unresolved), and an instrumentation counter of how many times
the deferred computation has run.  A possibly non-deterministic deferred
computation is modelled as a function from the invocation count to the
produced result. -/
structure MemoNode (R : Type) : Type where
  does_memoize : Bool
  slot : Option R
  calls : Nat

namespace MemoNode

/-- The `SinglyLinkedStream.next` getter (src/streams/__init__.py lines
112-124; the `DoublyLinkedStream.next` getter at lines 373-385 has the same
body): `try: return self._next` succeeds when the slot is filled; on
`AttributeError` the thunk runs, the result is stored iff `does_memoize`,
and the result is returned. -/
def nextRead {R : Type} (thunk : Nat → R) (node : MemoNode R) : R × MemoNode R :=
  match node.slot with
  | some r => (r, node)
  | none =>
    let r := thunk node.calls
    (r, { node with slot := if node.does_memoize then some r else none,
                    calls := node.calls + 1 })

/-- The `DoublyLinkedStream.previous` getter (src/streams/__init__.py lines
387-399): identical logic on the `_previous` slot. -/
def previousRead {R : Type} (thunk : Nat → R) (node : MemoNode R) : R × MemoNode R :=
  match node.slot with
  | some r => (r, node)
  | none =>
    let r := thunk node.calls
    (r, { node with slot := if node.does_memoize then some r else none,
                    calls := node.calls + 1 })

end MemoNode

open PartialList DZip ABState MemoNode

/-! Helper lemmas. -/

theorem sStopper_zero {V : Type} (s : PartialList V) : sStopper s 0 = PartialList.nil := by
  cases s <;> rfl

theorem iterate_fromIterator {V : Type} (S : List V) :
    iterate (fromIterator S) = (S, none) := by
  induction S with
  | nil => rfl
  | cons x xs ih => simp [fromIterator, iterate, ih]

theorem iterate_cons {V : Type} (v : V) (t : PartialList V) :
    iterate (PartialList.cons v t) = (v :: (iterate t).1, (iterate t).2) := rfl

theorem dIterate_eq {V : Type} (z : DZip V) :
    dIterate z = (z.value :: z.after, none) := by
  obtain ⟨before, v, after⟩ := z
  induction after generalizing before v with
  | nil => simp [dIterate]
  | cons a rest ih => simp [dIterate, ih]

theorem revIterate_eq {V : Type} (z : DZip V) :
    revIterate z = (z.value :: z.before, none) := by
  obtain ⟨before, v, after⟩ := z
  induction before generalizing after v with
  | nil => simp [revIterate]
  | cons b bs ih => simp [revIterate, ih]

theorem starterWalk_fromIterator_lt {V : Type} (S : List V) (k : Nat)
    (h : k < S.length) :
    starterWalk (fromIterator S) k = .ok (fromIterator (S.drop k)) := by
  induction S generalizing k with
  | nil => exact absurd h (by simp)
  | cons x xs ih =>
    cases k with
    | zero => rfl
    | succ k => exact ih k (by simpa using h)

theorem starterWalk_fromIterator_ge {V : Type} (S : List V) (k : Nat)
    (h : S.length ≤ k) :
    starterWalk (fromIterator S) k = .error .indexError := by
  induction S generalizing k with
  | nil => cases k <;> rfl
  | cons x xs ih =>
    cases k with
    | zero => exact absurd h (by simp)
    | succ k => exact ih k (by simpa using h)

theorem starterNat_fromIterator_lt {V : Type} (S : List V) (n : Nat)
    (h : n < S.length) :
    starterNat (fromIterator S) n = .ok (fromIterator (S.drop n)) := by
  cases n with
  | zero => rfl
  | succ n =>
    cases S with
    | nil => exact absurd h (by simp)
    | cons x xs =>
      show starterWalk (fromIterator xs) n = _
      exact starterWalk_fromIterator_lt xs n (by simpa using h)

theorem starterNat_fromIterator_ge {V : Type} (S : List V) (n : Nat)
    (hS : S ≠ []) (h : S.length ≤ n) :
    starterNat (fromIterator S) n = .error .indexError := by
  cases n with
  | zero =>
    exact absurd (List.eq_nil_of_length_eq_zero (Nat.le_zero.mp h)) hS
  | succ n =>
    cases S with
    | nil => exact absurd rfl hS
    | cons x xs =>
      show starterWalk (fromIterator xs) n = _
      exact starterWalk_fromIterator_ge xs n (by simpa using h)

theorem stopper_iterate_le {V : Type} (S : List V) (n : Nat)
    (hn : 0 < n) (hle : n ≤ S.length) :
    iterate (sStopper (fromIterator S) n) = (S.take n, none) := by
  induction S generalizing n with
  | nil => simp at hle; omega
  | cons x xs ih =>
    cases n with
    | zero => exact absurd hn (by omega)
    | succ m =>
      cases xs with
      | nil =>
        have hm : m = 0 := by
          have h1 : m + 1 ≤ 1 := by simpa using hle
          omega
        subst hm
        rfl
      | cons y ys =>
        cases m with
        | zero => rfl
        | succ p =>
          have hrec := ih (p + 1) (Nat.succ_pos p) (by simpa using hle)
          calc iterate (sStopper (fromIterator (x :: y :: ys)) (p + 1 + 1))
              = (x :: (iterate (sStopper (fromIterator (y :: ys)) (p + 1))).1,
                 (iterate (sStopper (fromIterator (y :: ys)) (p + 1))).2) := rfl
            _ = ((x :: y :: ys).take (p + 1 + 1), none) := by rw [hrec]; rfl

theorem stopper_iterate_gt {V : Type} (S : List V) (n : Nat)
    (hS : S ≠ []) (hgt : S.length < n) :
    iterate (sStopper (fromIterator S) n) = (S, some .indexError) := by
  induction S generalizing n with
  | nil => exact absurd rfl hS
  | cons x xs ih =>
    cases n with
    | zero => exact absurd hgt (by simp)
    | succ m =>
      cases xs with
      | nil =>
        have hm : 0 < m := by
          have h1 : 1 < m + 1 := by simpa using hgt
          omega
        simp [fromIterator, sStopper, iterate, hm]
      | cons y ys =>
        have hrec := ih m (by simp) (by simpa using hgt)
        calc iterate (sStopper (fromIterator (x :: y :: ys)) (m + 1))
            = (x :: (iterate (sStopper (fromIterator (y :: ys)) m)).1,
               (iterate (sStopper (fromIterator (y :: ys)) m)).2) := rfl
          _ = (x :: y :: ys, some .indexError) := by rw [hrec]

theorem exceptBind_ok {A B : Type} (a : A) (f : A → Except PyErr B) :
    Except.bind (Except.ok a) f = f a := rfl

theorem exceptBind_error {A B : Type} (e : PyErr) (f : A → Except PyErr B) :
    Except.bind (Except.error e : Except PyErr A) f = Except.error e := rfl

theorem fromIterator_ne_raise {V : Type} (S : List V) (e : PyErr) :
    fromIterator S ≠ PartialList.raise e := by
  cases S <;> simp [fromIterator]

theorem fromIterator_cons_of_ne_nil {V : Type} (T : List V) (hT : T ≠ []) :
    ∃ v rest, fromIterator T = PartialList.cons v rest := by
  cases T with
  | nil => exact absurd rfl hT
  | cons x xs => exact ⟨x, fromIterator xs, rfl⟩

theorem sStopper_succ_shape {V : Type} (v : V) (rest : PartialList V) (n : Nat) :
    ∃ t, sStopper (PartialList.cons v rest) (n + 1) = PartialList.cons v t := by
  cases rest with
  | nil => exact ⟨_, rfl⟩
  | raise e => exact ⟨_, rfl⟩
  | cons w r => exact ⟨_, rfl⟩

theorem sStopper_ne_raise {V : Type} (v : V) (rest : PartialList V) (n : Nat)
    (e : PyErr) : sStopper (PartialList.cons v rest) n ≠ PartialList.raise e := by
  cases n with
  | zero => rw [sStopper_zero]; simp
  | succ m =>
    obtain ⟨t, ht⟩ := sStopper_succ_shape v rest m
    rw [ht]
    simp

theorem slicePhase3_valueError {V : Type} (node : PartialList V)
    (hnr : ∀ e, node ≠ PartialList.raise e) (step : Option Int) :
    slicePhase3 node step = .error .valueError ↔ ∃ k, step = some k ∧ k ≤ 0 := by
  cases step with
  | none => simp [slicePhase3]
  | some k =>
    by_cases hk : k ≤ 0
    · simp [slicePhase3, hk]
    · cases node with
      | nil => simp [slicePhase3, hk]
      | raise e => exact absurd rfl (hnr e)
      | cons v rest => simp [slicePhase3, hk]

theorem slice_tail_valueError_iff {V : Type} (T : List V) (hT : T ≠ [])
    (start stop step : Option Int) :
    (Except.bind (slicePhase2 (fromIterator T) start stop) fun node2 =>
        slicePhase3 node2 step) = .error .valueError ↔
      ((∃ sp, stop = some sp ∧ sp < 0) ∨
       (∃ st sp, start = some st ∧ stop = some sp ∧ 0 ≤ sp ∧ sp - st < st) ∨
       (stopPhaseOk start stop ∧ ∃ k, step = some k ∧ k ≤ 0)) := by
  obtain ⟨v, rest, hvr⟩ := fromIterator_cons_of_ne_nil T hT
  cases stop with
  | none =>
    rw [show slicePhase2 (fromIterator T) start none = .ok (fromIterator T) from rfl,
      exceptBind_ok, slicePhase3_valueError _ (fromIterator_ne_raise T) step]
    simp [stopPhaseOk]
  | some sp =>
    by_cases hsp : sp < 0
    · have h2 : slicePhase2 (fromIterator T) start (some sp) = .error .valueError := by
        simp [slicePhase2, hsp]
      rw [h2, exceptBind_error]
      exact iff_of_true rfl (Or.inl ⟨sp, rfl, hsp⟩)
    · cases start with
      | none =>
        have h2 : slicePhase2 (fromIterator T) none (some sp)
            = .ok (sStopper (fromIterator T) sp.toNat) := by
          simp [slicePhase2, hsp]
        rw [h2, exceptBind_ok, hvr,
          slicePhase3_valueError _ (sStopper_ne_raise v rest _) step]
        simp [stopPhaseOk, hsp, not_lt.mp hsp]
      | some st =>
        by_cases hcmp : st > sp - st
        · have h2 : slicePhase2 (fromIterator T) (some st) (some sp)
              = .error .valueError := by
            simp [slicePhase2, hsp, hcmp]
          rw [h2, exceptBind_error]
          exact iff_of_true rfl
            (Or.inr (Or.inl ⟨st, sp, rfl, rfl, not_lt.mp hsp, hcmp⟩))
        · have h2 : slicePhase2 (fromIterator T) (some st) (some sp)
              = .ok (sStopper (fromIterator T) (sp - st).toNat) := by
            simp [slicePhase2, hsp, hcmp]
          rw [h2, exceptBind_ok, hvr,
            slicePhase3_valueError _ (sStopper_ne_raise v rest _) step]
          simp [stopPhaseOk, hsp, not_lt.mp hsp, hcmp, le_of_not_lt hcmp]

/-! Claim theorems. -/

/-- C1: the spec says that `DoublyLinkedStream._from_iterator` returns the
absent sentinel (`None`) when the source iterator is exhausted.  The code
instead executes `return cls()`, which raises `TypeError` because
`DoublyLinkedStream.__init__` requires the `value` and `next_thunk`
arguments: building from an empty iterator raises, and resolving `next`
past the last node of a finite built stream raises as well, rather than
reaching the sentinel. -/
theorem c1_doubly_build_from_exhaustion_raises :
    dFromIterator ([] : List Nat) = .error .typeError
    ∧ Except.bind (Except.bind (dFromIterator [1, 2]) builtNext) builtNext
        = (.error .typeError : Except PyErr (DZip Nat)) := by
  exact ⟨rfl, rfl⟩

/-- C2 counterexample: iterating `SinglyLinkedStream.map(fn, s3, s5)` over
streams of lengths 3 and 5 yields exactly 3 values but then raises
`AttributeError` (attribute access on the absent sentinel `None`) instead of
terminating at the sentinel, so the claimed trace `([11,22,33], none)` is
not what the code produces. -/
theorem c2_map_sentinel_counterexample :
    iterate (sMap2 (fun a b => a + b) (fromIterator [1, 2, 3])
        (fromIterator [10, 20, 30, 40, 50]))
      = ([11, 22, 33], some .attributeError)
    ∧ iterate (sMap2 (fun a b => a + b) (fromIterator [1, 2, 3])
        (fromIterator [10, 20, 30, 40, 50]))
      ≠ ([11, 22, 33], (none : Option PyErr)) := by
  exact ⟨rfl, by decide⟩

/-- C2 (amended): for every function `fn` and singly linked streams of
lengths 3 and 5, iterating `map(fn, s3, s5)` yields exactly the 3 lock-step
results and then raises `AttributeError` when the fourth node is demanded:
the mapping stops when the shortest input ends, but by an error from
attribute access on the absent sentinel, not by returning the sentinel. -/
theorem c2_map_lockstep_three_of_five {A B C : Type} (fn : A → B → C)
    (xs : List A) (ys : List B) (h3 : xs.length = 3) (h5 : ys.length = 5) :
    iterate (sMap2 fn (fromIterator xs) (fromIterator ys))
      = (List.zipWith fn xs ys, some .attributeError) := by
  obtain ⟨a1, a2, a3, rfl⟩ : ∃ a1 a2 a3, xs = [a1, a2, a3] :=
    List.length_eq_three.mp h3
  rcases ys with _ | ⟨b1, ys⟩; · simp at h5
  rcases ys with _ | ⟨b2, ys⟩; · simp at h5
  rcases ys with _ | ⟨b3, ys⟩; · simp at h5
  rcases ys with _ | ⟨b4, ys⟩; · simp at h5
  rcases ys with _ | ⟨b5, ys⟩; · simp at h5
  have hnil : ys = [] := by
    have : ys.length = 0 := by simpa using h5
    exact List.eq_nil_of_length_eq_zero this
  subst hnil
  rfl

/-- C2 witness: the amended lock-step theorem applied to concrete streams
of lengths 3 and 5. -/
theorem c2_map_lockstep_witness :
    iterate (sMap2 (fun a b => a * b) (fromIterator [1, 2, 3])
        (fromIterator [1, 1, 1, 1, 1]))
      = ([1, 2, 3], some .attributeError) :=
  c2_map_lockstep_three_of_five (fun a b => a * b) [1, 2, 3] [1, 1, 1, 1, 1]
    (by decide) (by decide)

/-- C3 counterexample: for a memoizing doubly linked node `A` constructed
directly (its `next` thunk is the plain `lambda: B`), resolving `A.next`
once does not resolve `B.previous` — the slot is still absent — and a
subsequent read of `B.previous` invokes `B`'s own backward deferred
computation, contradicting the claim as stated for every memoizing node. -/
theorem c3_plain_next_no_backfill :
    (readNextPlain abInit).1 = some NodeRef.refB
    ∧ (readNextPlain abInit).2.bPrev = none
    ∧ (readPrevB none (readNextPlain abInit).2).2.bPrevCalls = 1 := by
  exact ⟨rfl, rfl, rfl⟩

/-- C3 (amended): when `A`'s forward thunk is wrapped through
`thunk_init` with the previous-setting initializer — as the memoizing
doubly linked combinators (`__reversed__`, `map`, `_filter`, `_stepper`,
`_stopper`) build it — resolving `A.next` once yields `B`, leaves
`B.previous` already resolved to `A`, and a subsequent read of `B.previous`
returns `A` without ever invoking `B`'s own backward deferred computation
(whatever that computation would have produced). -/
theorem c3_thunk_init_backfill (r : Option NodeRef) :
    (readNextWrapped abInit).1 = some NodeRef.refB
    ∧ (readNextWrapped abInit).2.bPrev = some (some NodeRef.refA)
    ∧ (readPrevB r (readNextWrapped abInit).2).1 = some NodeRef.refA
    ∧ (readPrevB r (readNextWrapped abInit).2).2.bPrevCalls = 0 := by
  exact ⟨rfl, rfl, rfl, rfl⟩

/-- C4 counterexample: for the empty sequence, `build_from` returns the
absent sentinel `None`, and `list(iterate(None))` raises `TypeError`
(`None` is not iterable) instead of producing the empty list, so the
round-trip claim fails at `S = []`. -/
theorem c4_empty_build_counterexample :
    buildIterate ([] : List Nat) = .error .typeError
    ∧ buildIterate ([] : List Nat) ≠ .ok ([], none) := by
  exact ⟨rfl, by decide⟩

/-- C4 (amended): for every nonempty finite sequence `S`, building a singly
linked stream via `build_from` and iterating it yields exactly the elements
of `S` in order, terminating at the absent sentinel when the source is
exhausted. -/
theorem c4_build_from_round_trip {V : Type} (S : List V) (hS : S ≠ []) :
    buildIterate S = .ok (S, none) := by
  cases S with
  | nil => exact absurd rfl hS
  | cons x xs =>
    show Except.ok (iterate (PartialList.cons x (fromIterator xs))) = _
    rw [show PartialList.cons x (fromIterator xs) = fromIterator (x :: xs) from rfl,
      iterate_fromIterator]

/-- C4 witness: the round-trip theorem applied to the concrete sequence
`[1, 2]`. -/
theorem c4_build_from_round_trip_witness :
    buildIterate [1, 2] = .ok ([1, 2], none) :=
  c4_build_from_round_trip [1, 2] (by decide)

/-- C5 counterexample: on the one-node stream `[5]`, the slice
`start=1, stop=-1` has a negative `stop`, so the claim demands an eagerly
raised range-validation error without touching the stream; the code instead
advances by `start` first — resolving a link — and that advance raises
`IndexError`, so no range-validation error occurs at all.  Moreover, on
`[1,2,3,4]` the slice `start=2, stop=3` raises `ValueError` even though
`start` does not exceed `stop`: the code compares `start` against
`stop - start`. -/
theorem c5_slice_validation_counterexample :
    getitemSlice (fromIterator [5]) (some 1) (some (-1)) none
      = (.error .indexError : Except PyErr (PartialList Nat))
    ∧ (.error .indexError : Except PyErr (PartialList Nat)) ≠ .error .valueError
    ∧ getitemSlice (fromIterator [1, 2, 3, 4]) (some 2) (some 3) none
      = (.error .valueError : Except PyErr (PartialList Nat)) := by
  exact ⟨rfl, by decide, rfl⟩

/-- C5 (amended): for a nonempty stream, the slice branch of `__getitem__`
raises `ValueError` exactly when: a provided `start` is negative (this
check alone is eager, before any traversal); or — after successfully
advancing by `start`, which resolves links and may instead raise
`IndexError` — a provided `stop` is negative, or both `start` and `stop`
are provided with `start` exceeding the decremented bound `stop - start`;
or, all earlier checks passing, a provided `step` is non-positive. -/
theorem c5_slice_valueError_iff {V : Type} (S : List V) (hS : S ≠ [])
    (start stop step : Option Int) :
    getitemSlice (fromIterator S) start stop step = .error .valueError ↔
      ((∃ st, start = some st ∧ st < 0) ∨
       (startPhaseOk S start ∧
         ((∃ sp, stop = some sp ∧ sp < 0) ∨
          (∃ st sp, start = some st ∧ stop = some sp ∧ 0 ≤ sp ∧ sp - st < st) ∨
          (stopPhaseOk start stop ∧ ∃ k, step = some k ∧ k ≤ 0)))) := by
  cases start with
  | none =>
    rw [getitemSlice,
      show slicePhase1 (fromIterator S) none = .ok (fromIterator S) from rfl,
      exceptBind_ok, slice_tail_valueError_iff S hS none stop step]
    simp [startPhaseOk]
  | some st =>
    by_cases hst : st < 0
    · have hL : getitemSlice (fromIterator S) (some st) stop step
          = .error .valueError := by
        rw [getitemSlice, show slicePhase1 (fromIterator S) (some st)
          = .error .valueError from by simp [slicePhase1, hst], exceptBind_error]
      rw [hL]
      exact iff_of_true rfl (Or.inl ⟨st, rfl, hst⟩)
    · by_cases hlen : st.toNat < S.length
      · have hT : S.drop st.toNat ≠ [] := by
          intro hc
          rw [List.drop_eq_nil_iff] at hc
          omega
        rw [getitemSlice, show slicePhase1 (fromIterator S) (some st)
            = .ok (fromIterator (S.drop st.toNat)) from by
            simp [slicePhase1, hst, starterNat_fromIterator_lt S st.toNat hlen],
          exceptBind_ok,
          slice_tail_valueError_iff (S.drop st.toNat) hT (some st) stop step]
        simp only [startPhaseOk]
        constructor
        · intro h
          exact Or.inr ⟨⟨not_lt.mp hst, hlen⟩, h⟩
        · rintro (⟨st2, hst2, hneg⟩ | ⟨-, h⟩)
          · cases hst2
            exact absurd hneg hst
          · exact h
      · have hL : getitemSlice (fromIterator S) (some st) stop step
            = .error .indexError := by
          rw [getitemSlice, show slicePhase1 (fromIterator S) (some st)
            = .error .indexError from by
            simp [slicePhase1, hst,
              starterNat_fromIterator_ge S st.toNat hS (not_lt.mp hlen)],
            exceptBind_error]
        rw [hL]
        apply iff_of_false
        · simp
        · rintro (⟨st2, hst2, hneg⟩ | ⟨⟨hge, hlt⟩, -⟩)
          · cases hst2
            exact absurd hneg hst
          · exact absurd hlt hlen

/-- C5 witness: the amended characterization applied to the stream `[1]`
with `step = 0`, where the code does raise the range-validation error. -/
theorem c5_slice_valueError_witness :
    getitemSlice (fromIterator [1]) none none (some 0)
      = (.error .valueError : Except PyErr (PartialList Nat)) :=
  (c5_slice_valueError_iff [1] (by decide) none none (some 0)).mpr
    (Or.inr ⟨trivial, Or.inr (Or.inr ⟨trivial, ⟨0, rfl, by decide⟩⟩)⟩)

/-- C6 counterexample: on a doubly linked node with no node behind it and a
value that does not occur in the forward scan, `__contains__` does not
return `False`: the backward scan iterates `reversed(self).next`, which is
`None`, and the `for` statement raises `TypeError`. -/
theorem c6_contains_no_predecessor_raises :
    dContains 2 (⟨[], 1, []⟩ : DZip Nat) = .error .typeError
    ∧ dContains 2 (⟨[], 1, []⟩ : DZip Nat) ≠ .ok false := by
  constructor
  · simp [dContains, dIterate_eq, zipPrev]
  · simp [dContains, dIterate_eq, zipPrev]

/-- C6 (amended): for a doubly linked node with finite clean extents in both
directions that has at least one node behind it, `contains(x)` scans forward
from self and separately backward from the node one step behind self,
returning true exactly when either scan finds `x` and false exactly when
both scans are exhausted without a match; when there is no node behind self
the backward scan raises `TypeError` instead (see the counterexample). -/
theorem c6_contains_two_scans {V : Type} [DecidableEq V] (x : V) (z : DZip V)
    (h : z.before ≠ []) :
    (dContains x z = .ok true ↔ (x ∈ z.value :: z.after ∨ x ∈ z.before))
    ∧ (dContains x z = .ok false ↔ (x ∉ z.value :: z.after ∧ x ∉ z.before)) := by
  obtain ⟨before, v, after⟩ := z
  cases before with
  | nil => exact absurd rfl h
  | cons b bs =>
    simp only [dContains, dIterate_eq, zipPrev, revIterate_eq]
    by_cases h1 : x ∈ v :: after
    · simp [h1]
    · by_cases h2 : x ∈ b :: bs
      · simp [h1, h2]
      · simp [h1, h2]

/-- C6 witness: the two-scan theorem applied to a concrete node whose
predecessor chain contains the sought value. -/
theorem c6_contains_two_scans_witness :
    dContains 1 (⟨[1], 5, [9]⟩ : DZip Nat) = .ok true :=
  (c6_contains_two_scans 1 ⟨[1], 5, [9]⟩ (by decide)).1.mpr (Or.inr (by decide))

/-- C7: for a memoizing node, two successive reads of `next` (or, for
doubly linked nodes, `previous`) starting from the unresolved slot return
the same cached result, and the underlying deferred computation runs exactly
once in total — even if the computation is non-deterministic (modelled by
indexing it on the invocation count, so a second invocation could have
returned something different). -/
theorem c7_memoization_idempotence {R : Type} (tn tp : Nat → R) :
    (nextRead tn ⟨true, none, 0⟩).1
        = (nextRead tn (nextRead tn ⟨true, none, 0⟩).2).1
    ∧ (nextRead tn (nextRead tn ⟨true, none, 0⟩).2).2.calls = 1
    ∧ (previousRead tp ⟨true, none, 0⟩).1
        = (previousRead tp (previousRead tp ⟨true, none, 0⟩).2).1
    ∧ (previousRead tp (previousRead tp ⟨true, none, 0⟩).2).2.calls = 1 := by
  exact ⟨rfl, rfl, rfl, rfl⟩

/-- C8: for a finite singly linked stream built from a nonempty sequence
`S` of length `L`: `_stopper(0)` is the absent sentinel; for `0 < n ≤ L`,
fully traversing `_stopper(n)` yields exactly the first `n` values and
reaches the absent sentinel without error (limiting to exactly the
remaining length succeeds); and for `n > L`, traversal yields all `L`
values and then raises `IndexError` at the truncation boundary. -/
theorem c8_stopper_boundary {V : Type} (S : List V) (hS : S ≠ []) (n : Nat) :
    (n = 0 → sStopper (fromIterator S) n = PartialList.nil)
    ∧ (0 < n → n ≤ S.length →
        iterate (sStopper (fromIterator S) n) = (S.take n, none))
    ∧ (S.length < n →
        iterate (sStopper (fromIterator S) n) = (S, some .indexError)) := by
  refine ⟨?_, fun hn hle => stopper_iterate_le S n hn hle,
    fun hgt => stopper_iterate_gt S n hS hgt⟩
  rintro rfl
  exact sStopper_zero _

/-- C8 witness: the boundary theorem applied at `S = [1, 2]` and
`n = 3 > L = 2`. -/
theorem c8_stopper_boundary_witness :
    iterate (sStopper (fromIterator [1, 2]) 3) = ([1, 2], some .indexError) :=
  (c8_stopper_boundary [1, 2] (by decide) 3).2.2 (by decide)

/-- C9: for the finite memoizing doubly linked stream built from
`[1, 2, 3]`, walking `next` twice reaches the node at the end of the
stream, and iterating the reversal of that node yields exactly `[3, 2, 1]`
before terminating cleanly at the absent sentinel (the front node's
`previous` is `None`, so `reversed_node` produces `None`). -/
theorem c9_reverse_round_trip :
    Except.bind (Except.bind (dFromIterator [1, 2, 3]) builtNext) builtNext
      = .ok (⟨[2, 1], 3, []⟩ : DZip Nat)
    ∧ revIterate (⟨[2, 1], 3, []⟩ : DZip Nat) = ([3, 2, 1], none) := by
  exact ⟨rfl, revIterate_eq ⟨[2, 1], 3, []⟩⟩

/-- C10: for every singly linked stream node and every negative integer
`i`, `s[i]` succeeds and returns the node's own value — `range(n)` over a
negative count is empty, so the forward walk performs zero steps and a
negative index is neither an error nor a from-the-end index — unlike the
doubly linked `_starter`, where a negative count walks backward (shown here
on a two-node chain standing at its second node, where index `-1` reaches
the first value). -/
theorem c10_negative_index_returns_head {V : Type} (v : V)
    (rest : PartialList V) (i : Int) (h : i < 0) :
    getitemInt (PartialList.cons v rest) i = .ok v
    ∧ dStarter (⟨[10], 20, []⟩ : DZip Nat) (-1) = .ok ⟨[], 10, [20]⟩ := by
  refine ⟨?_, rfl⟩
  have h0 : i.toNat = 0 := Int.toNat_of_nonpos h.le
  simp [getitemInt, h0, starterNat]

/-- C10 witness: a negative index on a concrete one-node stream returns the
head value, alongside the doubly linked backward-walk contrast. -/
theorem c10_negative_index_witness :
    getitemInt (PartialList.cons 7 PartialList.nil : PartialList Nat) (-3) = .ok 7
    ∧ dStarter (⟨[10], 20, []⟩ : DZip Nat) (-1) = .ok ⟨[], 10, [20]⟩ :=
  c10_negative_index_returns_head 7 PartialList.nil (-3) (by decide)

end Streams
